import Mathlib

/-!
Verification of the Ultimaker Digital Factory SDK demo scripts.

The development shallowly embeds the TypeScript sources:
  * `monitor-printers.ts` — the cluster-monitoring script
    (`getPreviousClusterStatus`, `compareResults`, `csvLine`,
    `monitorClusters`);
  * `digital-factory.ts` — the `DigitalFactoryDemo` OAuth2/PKCE client
    (`signIn`, `_handleRequest`, `_requestAccessToken`, the PKCE helpers);
  * `main.ts` — the interactive demo entry point.

JavaScript values are modelled as follows: strings are `String`, JS
`Set<string>` (insertion-ordered, deduplicating) is a duplicate-free
`List String` in insertion order, `null`/`undefined` appear as `Option`,
JS numbers holding counts are `Nat` and differences are `Int`.
External library functions (SHA-512, base64, the OAuth token endpoint,
`JSON.parse`) are parameters of the embedding; `String.localeCompare`
is modelled as code-point (lexicographic) string comparison.
-/

namespace DFSDK

/-- Used fields of the Connect API cluster response (`ClusterResponse`). -/
structure ClusterResponse where
  cluster_id : String
  is_online : Bool
deriving Repr, DecidableEq

/-- The comparison between two lists of clusters (`Comparison`). -/
structure Comparison where
  dateTime : String
  appeared : List String
  gone : List String
  onlineCount : Nat
  offlineCount : Int
deriving Repr, DecidableEq

/-- Adding one element to a JS `Set<string>`: duplicates are dropped,
insertion order is kept. -/
def addToSet (s : List String) (x : String) : List String :=
  if s.contains x then s else s ++ [x]

/-- `new Set<string>(xs)`: deduplicate, keeping the first occurrence order. -/
def jsSetOfList (xs : List String) : List String := xs.foldl addToSet []

/-- The local helper `getOnlineClusterIds` of `compareResults`:
the set of cluster ids of the online clusters. -/
def getOnlineClusterIds (clusters : List ClusterResponse) : List String :=
  jsSetOfList ((clusters.filter fun c => c.is_online).map fun c => c.cluster_id)

/-- `compareResults(previous, current, dateTime)` from `monitor-printers.ts`.
The `Date` argument is represented by its ISO string. -/
def compareResults (previous current : List ClusterResponse) (dateTime : String) :
    Comparison :=
  let previousOnlineIds := getOnlineClusterIds previous
  let currentOnlineIds := getOnlineClusterIds current
  { dateTime := dateTime
    appeared := currentOnlineIds.filter fun id => !(previousOnlineIds.contains id)
    gone := previousOnlineIds.filter fun id => !(currentOnlineIds.contains id)
    onlineCount := currentOnlineIds.length
    offlineCount := (current.length : Int) - currentOnlineIds.length }

/-- JS array `.join(',')` (the default `toString` of a string array). -/
def joinComma (xs : List String) : String := String.intercalate "," xs

/-- `csvLine(comparison, separator)` from `monitor-printers.ts`. -/
def csvLine (c : Comparison) (separator : String := ";") : String :=
  String.intercalate separator
    [c.dateTime, joinComma c.appeared, joinComma c.gone,
     toString c.onlineCount, toString c.offlineCount]

/-- Specification-side predicate: `id` is the id of some online cluster in
the list. -/
def IsOnlineIdIn (clusters : List ClusterResponse) (id : String) : Prop :=
  ∃ c ∈ clusters, c.is_online = true ∧ c.cluster_id = id

instance (clusters : List ClusterResponse) (id : String) :
    Decidable (IsOnlineIdIn clusters id) := by
  unfold IsOnlineIdIn; infer_instance

lemma mem_foldl_addToSet (xs : List String) (acc : List String) (x : String) :
    x ∈ xs.foldl addToSet acc ↔ x ∈ acc ∨ x ∈ xs := by
  induction xs generalizing acc with
  | nil => simp
  | cons y ys ih =>
    simp only [List.foldl_cons, ih, addToSet]
    by_cases h : acc.contains y
    · simp only [h, if_pos]
      have : y ∈ acc := by simpa using h
      constructor
      · rintro (hx | hx)
        · exact Or.inl hx
        · exact Or.inr (List.mem_cons_of_mem _ hx)
      · rintro (hx | hx)
        · exact Or.inl hx
        · rcases List.mem_cons.mp hx with rfl | hx
          · exact Or.inl this
          · exact Or.inr hx
    · simp only [h, if_neg, Bool.false_eq_true, not_false_iff, List.mem_append,
        List.mem_singleton]
      constructor
      · rintro ((hx | rfl) | hx)
        · exact Or.inl hx
        · exact Or.inr (List.mem_cons_self _ _)
        · exact Or.inr (List.mem_cons_of_mem _ hx)
      · rintro (hx | hx)
        · exact Or.inl (Or.inl hx)
        · rcases List.mem_cons.mp hx with rfl | hx
          · exact Or.inl (Or.inr rfl)
          · exact Or.inr hx

lemma mem_jsSetOfList (xs : List String) (x : String) :
    x ∈ jsSetOfList xs ↔ x ∈ xs := by
  simp [jsSetOfList, mem_foldl_addToSet]

lemma nodup_foldl_addToSet (xs : List String) (acc : List String)
    (hacc : acc.Nodup) : (xs.foldl addToSet acc).Nodup := by
  induction xs generalizing acc with
  | nil => simpa
  | cons y ys ih =>
    simp only [List.foldl_cons]
    apply ih
    unfold addToSet
    by_cases h : y ∈ acc
    · rw [if_pos (show acc.contains y = true by simpa using h)]
      exact hacc
    · rw [if_neg (show ¬ acc.contains y = true by simpa using h)]
      simp [List.nodup_append, hacc, h]

lemma nodup_jsSetOfList (xs : List String) : (jsSetOfList xs).Nodup :=
  nodup_foldl_addToSet xs [] List.nodup_nil

lemma mem_getOnlineClusterIds (clusters : List ClusterResponse) (id : String) :
    id ∈ getOnlineClusterIds clusters ↔ IsOnlineIdIn clusters id := by
  simp [getOnlineClusterIds, mem_jsSetOfList, List.mem_map, List.mem_filter,
    IsOnlineIdIn]
  constructor
  · rintro ⟨c, ⟨hc, hon⟩, rfl⟩
    exact ⟨c, hc, hon, rfl⟩
  · rintro ⟨c, hc, hon, rfl⟩
    exact ⟨c, ⟨hc, hon⟩, rfl⟩

lemma length_jsSetOfList_eq_card (xs : List String) :
    (jsSetOfList xs).length = xs.toFinset.card := by
  have hnd := nodup_jsSetOfList xs
  have hset : (jsSetOfList xs).toFinset = xs.toFinset := by
    ext a
    simp [List.mem_toFinset, mem_jsSetOfList]
  calc (jsSetOfList xs).length = (jsSetOfList xs).toFinset.card :=
        (List.toFinset_card_of_nodup hnd).symm
    _ = xs.toFinset.card := by rw [hset]

/-- C1: `compareResults` computes the two set-differences of online cluster
ids. An id appears in `appeared` exactly when it is the id of an online
cluster in `current` but of no online cluster in `previous`, and in `gone`
exactly in the symmetric case; both lists are duplicate-free, so they are
exactly those sets. -/
theorem compareResults_setdiff (previous current : List ClusterResponse)
    (dateTime : String) :
    (∀ id, id ∈ (compareResults previous current dateTime).appeared ↔
      (IsOnlineIdIn current id ∧ ¬ IsOnlineIdIn previous id))
    ∧ (∀ id, id ∈ (compareResults previous current dateTime).gone ↔
      (IsOnlineIdIn previous id ∧ ¬ IsOnlineIdIn current id))
    ∧ (compareResults previous current dateTime).appeared.Nodup
    ∧ (compareResults previous current dateTime).gone.Nodup := by
  refine ⟨?_, ?_, ?_, ?_⟩
  · intro id
    simp [compareResults, List.mem_filter, mem_getOnlineClusterIds,
      ← mem_getOnlineClusterIds]
  · intro id
    simp [compareResults, List.mem_filter, mem_getOnlineClusterIds,
      ← mem_getOnlineClusterIds]
  · exact List.Nodup.filter _ (nodup_jsSetOfList _)
  · exact List.Nodup.filter _ (nodup_jsSetOfList _)

/-- C8: `appeared` of `compareResults(a, b, t)` is literally the same list as
`gone` of `compareResults(b, a, t)`, and comparing a list with itself yields
empty `appeared` and `gone`. -/
theorem compareResults_antisymm (a b : List ClusterResponse) (t : String) :
    (compareResults a b t).appeared = (compareResults b a t).gone
    ∧ (compareResults a a t).appeared = []
    ∧ (compareResults a a t).gone = [] := by
  refine ⟨rfl, ?_, ?_⟩
  · simp [compareResults, List.filter_eq_nil_iff]
  · simp [compareResults, List.filter_eq_nil_iff]

/-- C9: `onlineCount` is the number of distinct cluster ids among the online
entries of `current` (not the number of online entries), `offlineCount` is
the length of `current` minus that count, and the two always sum to the
length of `current`. -/
theorem compareResults_counts (previous current : List ClusterResponse)
    (dateTime : String) :
    (compareResults previous current dateTime).onlineCount =
      ((current.filter fun c => c.is_online).map fun c => c.cluster_id).toFinset.card
    ∧ (compareResults previous current dateTime).offlineCount =
      (current.length : Int) -
        ((current.filter fun c => c.is_online).map fun c => c.cluster_id).toFinset.card
    ∧ ((compareResults previous current dateTime).onlineCount : Int) +
        (compareResults previous current dateTime).offlineCount =
      (current.length : Int) := by
  have hc : (compareResults previous current dateTime).onlineCount =
      ((current.filter fun c => c.is_online).map fun c => c.cluster_id).toFinset.card := by
    simp [compareResults, getOnlineClusterIds, length_jsSetOfList_eq_card]
  refine ⟨hc, ?_, ?_⟩
  · simp [compareResults, getOnlineClusterIds, length_jsSetOfList_eq_card]
  · simp [compareResults]

/-- Code-point (lexicographic) comparison of char lists; the model of
`a.localeCompare(b) <= 0`. -/
def lexLe : List Char → List Char → Bool
  | [], _ => true
  | _ :: _, [] => false
  | a :: as, b :: bs =>
    if a.toNat = b.toNat then lexLe as bs else decide (a.toNat < b.toNat)

/-- String comparison derived from `lexLe`. -/
def strLe (a b : String) : Bool := lexLe a.data b.data

lemma lexLe_refl : ∀ l : List Char, lexLe l l = true
  | [] => rfl
  | _ :: as => by simp [lexLe, lexLe_refl as]

lemma lexLe_total : ∀ a b : List Char, lexLe a b = true ∨ lexLe b a = true
  | [], _ => Or.inl rfl
  | _ :: _, [] => Or.inr rfl
  | a :: as, b :: bs => by
    rcases Nat.lt_trichotomy a.toNat b.toNat with h | h | h
    · left; simp [lexLe, Nat.ne_of_lt h, h]
    · rcases lexLe_total as bs with h' | h'
      · left; simp [lexLe, h, h']
      · right; simp [lexLe, h.symm, h']
    · right; simp [lexLe, Nat.ne_of_lt h, h]

lemma lexLe_trans : ∀ a b c : List Char,
    lexLe a b = true → lexLe b c = true → lexLe a c = true
  | [], _, _, _, _ => rfl
  | _ :: _, [], _, hab, _ => by simp [lexLe] at hab
  | _ :: _, _ :: _, [], _, hbc => by simp [lexLe] at hbc
  | a :: as, b :: bs, c :: cs, hab, hbc => by
    by_cases hab1 : a.toNat = b.toNat
    · by_cases hbc1 : b.toNat = c.toNat
      · simp only [lexLe, hab1, if_pos] at hab
        simp only [lexLe, hbc1, if_pos] at hbc
        have hac := lexLe_trans as bs cs hab hbc
        simp [lexLe, hab1.trans hbc1, hac]
      · have hbc2 : b.toNat < c.toNat := by simpa [lexLe, hbc1] using hbc
        have hac : a.toNat < c.toNat := hab1 ▸ hbc2
        simp [lexLe, Nat.ne_of_lt hac, hac]
    · have hab2 : a.toNat < b.toNat := by simpa [lexLe, hab1] using hab
      by_cases hbc1 : b.toNat = c.toNat
      · have hac : a.toNat < c.toNat := hbc1 ▸ hab2
        simp [lexLe, Nat.ne_of_lt hac, hac]
      · have hbc2 : b.toNat < c.toNat := by simpa [lexLe, hbc1] using hbc
        have hac := Nat.lt_trans hab2 hbc2
        simp [lexLe, Nat.ne_of_lt hac, hac]

lemma lexLe_antisymm : ∀ a b : List Char,
    lexLe a b = true → lexLe b a = true → a = b
  | [], [], _, _ => rfl
  | _ :: _, [], hab, _ => by simp [lexLe] at hab
  | [], _ :: _, _, hba => by simp [lexLe] at hba
  | a :: as, b :: bs, hab, hba => by
    by_cases h : a.toNat = b.toNat
    · simp only [lexLe, h, if_pos] at hab
      simp only [lexLe, h.symm, if_pos] at hba
      have hchar : a = b := by
        apply Char.ext
        simp only [Char.toNat] at h
        exact UInt32.toNat.inj h
      rw [hchar, lexLe_antisymm as bs hab hba]
    · have hne : ¬ b.toNat = a.toNat := fun e => h e.symm
      have h1 : a.toNat < b.toNat := by simpa [lexLe, h] using hab
      have h2 : b.toNat < a.toNat := by simpa [lexLe, hne] using hba
      omega

lemma strLe_refl (a : String) : strLe a a = true := lexLe_refl a.data

lemma strLe_total (a b : String) : strLe a b = true ∨ strLe b a = true :=
  lexLe_total a.data b.data

lemma strLe_trans {a b c : String} (h1 : strLe a b = true) (h2 : strLe b c = true) :
    strLe a c = true := lexLe_trans a.data b.data c.data h1 h2

lemma strLe_antisymm {a b : String} (h1 : strLe a b = true)
    (h2 : strLe b a = true) : a = b := by
  cases a; cases b
  exact congrArg String.mk (lexLe_antisymm _ _ h1 h2)

/-- The descending comparator `(a, b) => b.localeCompare(a)` used on the
snapshot file names: `a` is placed before `b` when `b ≤ a`. -/
def descLe (a b : String) : Bool := strLe b a

/-- Insertion into a `le`-sorted list. -/
def insertSorted (le : String → String → Bool) (x : String) :
    List String → List String
  | [] => [x]
  | y :: ys => if le x y then x :: y :: ys else y :: insertSorted le x ys

/-- Model of JS `Array.prototype.sort` with comparator `le`: with a
total-order comparator the sorted result is unique, so the choice of
sorting algorithm is immaterial. -/
def sortBy (le : String → String → Bool) (l : List String) : List String :=
  l.foldr (insertSorted le) []

lemma length_insertSorted (le : String → String → Bool) (x : String) :
    ∀ l : List String, (insertSorted le x l).length = l.length + 1
  | [] => rfl
  | y :: ys => by
    by_cases h : le x y
    · simp [insertSorted, h]
    · simp [insertSorted, h, length_insertSorted le x ys]

lemma sortBy_eq_nil_iff (le : String → String → Bool) (l : List String) :
    sortBy le l = [] ↔ l = [] := by
  induction l with
  | nil => simp [sortBy]
  | cons x xs ih =>
    simp only [sortBy, List.foldr_cons]
    constructor
    · intro h
      have := congrArg List.length h
      rw [length_insertSorted] at this
      simp at this
    · intro h; cases h

lemma head_insertSorted_cases (x : String) (s : List String) (m : String)
    (h : (insertSorted descLe x s).head? = some m) :
    (m = x ∧ ∀ a, s.head? = some a → strLe a x = true)
    ∨ (s.head? = some m ∧ strLe x m = true) := by
  cases s with
  | nil =>
    simp [insertSorted] at h
    exact Or.inl ⟨h.symm, by intro a ha; cases ha⟩
  | cons a s' =>
    by_cases hc : descLe x a = true
    · rw [insertSorted, if_pos hc] at h
      simp at h
      refine Or.inl ⟨h.symm, ?_⟩
      intro a' ha'
      simp at ha'
      rw [← ha']
      exact hc
    · rw [insertSorted, if_neg hc] at h
      simp at h
      refine Or.inr ⟨by simp [h], ?_⟩
      rw [← h]
      rcases strLe_total x a with ht | ht
      · exact ht
      · exact absurd ht hc

lemma head_sortBy_max : ∀ (l : List String) (m : String),
    (sortBy descLe l).head? = some m → m ∈ l ∧ ∀ x ∈ l, strLe x m = true
  | [], m, hm => by simp [sortBy] at hm
  | x :: l, m, hm => by
    have hrw : sortBy descLe (x :: l) = insertSorted descLe x (sortBy descLe l) :=
      rfl
    rw [hrw] at hm
    rcases head_insertSorted_cases x (sortBy descLe l) m hm with
      ⟨rfl, hbound⟩ | ⟨hhead, hxm⟩
    · refine ⟨List.mem_cons_self _ _, ?_⟩
      intro y hy
      rcases List.mem_cons.mp hy with rfl | hy
      · exact strLe_refl y
      · cases hs : (sortBy descLe l).head? with
        | none =>
          have : sortBy descLe l = [] := by
            cases hsl : sortBy descLe l with
            | nil => rfl
            | cons a s' => rw [hsl] at hs; simp at hs
          have hl : l = [] := (sortBy_eq_nil_iff descLe l).mp this
          rw [hl] at hy
          simp at hy
        | some a =>
          have ih := head_sortBy_max l a hs
          exact strLe_trans (ih.2 y hy) (hbound a hs)
    · have ih := head_sortBy_max l m hhead
      refine ⟨List.mem_cons_of_mem _ ih.1, ?_⟩
      intro y hy
      rcases List.mem_cons.mp hy with rfl | hy
      · exact hxm
      · exact ih.2 y hy

/-- The pieces of filesystem state `getPreviousClusterStatus` touches:
whether the status directory exists, the names `readdir` returns for it,
and each file's contents. -/
structure FileSystem where
  dirExists : Bool
  files : List String
  contents : String → String

/-- The possible results of `getPreviousClusterStatus`: `null` when the
directory was missing, `undefined` (falsy) when it holds no `.json` file,
or the `JSON.parse` of the chosen snapshot. -/
inductive PrevStatus where
  | nullRes
  | undefinedRes
  | parsed (clusters : List ClusterResponse)
deriving Repr, DecidableEq

/-- `file.endsWith('.json')`. -/
def endsWithJson (f : String) : Bool := ".json".data.isSuffixOf f.data

/-- `getPreviousClusterStatus(statusDir)` from `monitor-printers.ts`.
`JSON.parse` is the parameter `parse`; the comparator
`(a, b) => b.localeCompare(a)` sorts descending and `[0]` takes the head.
Returns the result together with the filesystem after the side effects
(`mkdir` with `recursive: true` when the directory is absent). -/
def getPreviousClusterStatus (parse : String → List ClusterResponse)
    (fs : FileSystem) : PrevStatus × FileSystem :=
  if fs.dirExists = false then
    (.nullRes, { fs with dirExists := true })
  else
    let existingFiles := fs.files
    match (sortBy descLe (existingFiles.filter endsWithJson)).head? with
    | none => (.undefinedRes, fs)
    | some lastFile => (.parsed (parse (fs.contents lastFile)), fs)

/-- C10: `getPreviousClusterStatus` returns `null` after creating the
directory when it does not exist, a falsy (`undefined`) value when it
exists but holds no `.json` file, and otherwise the parsed contents of the
lexicographically greatest `.json` file name. -/
theorem getPreviousClusterStatus_spec (parse : String → List ClusterResponse)
    (fs : FileSystem) :
    (fs.dirExists = false →
      getPreviousClusterStatus parse fs =
        (.nullRes, { fs with dirExists := true }))
    ∧ (fs.dirExists = true → (∀ f ∈ fs.files, endsWithJson f = false) →
      getPreviousClusterStatus parse fs = (.undefinedRes, fs))
    ∧ (∀ best, fs.dirExists = true → best ∈ fs.files → endsWithJson best = true →
      (∀ f ∈ fs.files, endsWithJson f = true → strLe f best = true) →
      getPreviousClusterStatus parse fs =
        (.parsed (parse (fs.contents best)), fs)) := by
  refine ⟨?_, ?_, ?_⟩
  · intro h
    simp [getPreviousClusterStatus, h]
  · intro h hnone
    have hfilter : fs.files.filter endsWithJson = [] := by
      rw [List.filter_eq_nil_iff]
      intro f hf
      simp [hnone f hf]
    simp [getPreviousClusterStatus, h, hfilter, sortBy]
  · intro best h hbestMem hbestJson hbestMax
    have hbestFilter : best ∈ fs.files.filter endsWithJson :=
      List.mem_filter.mpr ⟨hbestMem, hbestJson⟩
    have hne : fs.files.filter endsWithJson ≠ [] := by
      intro hnil
      rw [hnil] at hbestFilter
      simp at hbestFilter
    cases hs : (sortBy descLe (fs.files.filter endsWithJson)).head? with
    | none =>
      exfalso
      apply hne
      apply (sortBy_eq_nil_iff descLe _).mp
      cases hsl : sortBy descLe (fs.files.filter endsWithJson) with
      | nil => rfl
      | cons a s' => rw [hsl] at hs; simp at hs
    | some m =>
      have hmax := head_sortBy_max _ m hs
      have hmMem : m ∈ fs.files := (List.mem_filter.mp hmax.1).1
      have hmJson : endsWithJson m = true := (List.mem_filter.mp hmax.1).2
      have h1 : strLe m best = true := hbestMax m hmMem hmJson
      have h2 : strLe best m = true := hmax.2 best hbestFilter
      have hbm : m = best := strLe_antisymm h1 h2
      subst hbm
      simp only [getPreviousClusterStatus, h]
      simp [hs]

/-- Witness for C10: a directory with `a.json`, `b.json` and a non-JSON
file; the parsed contents of `b.json` are returned. -/
theorem getPreviousClusterStatus_spec_witness :
    getPreviousClusterStatus (fun s => [⟨s, true⟩])
        ⟨true, ["a.json", "b.json", "c.txt"], fun f => f⟩ =
      (.parsed [⟨"b.json", true⟩],
        ⟨true, ["a.json", "b.json", "c.txt"], fun f => f⟩) :=
  (getPreviousClusterStatus_spec (fun s => [⟨s, true⟩])
      ⟨true, ["a.json", "b.json", "c.txt"], fun f => f⟩).2.2 "b.json" rfl
    (by decide) (by decide) (by decide)

/-- One `demo.getClusters()` call as seen by the monitor loop: it can throw
(`error`), or return a value that is falsy (`got none`) or an actual
cluster list (`got (some clusters)`). -/
inductive FetchOutcome where
  | error
  | got (clusters : Option (List ClusterResponse))
deriving Repr, DecidableEq

/-- Observable events of the monitoring script: completed sign-in, one JSON
snapshot written, one CSV row appended, one `awaitAsync` sleep. -/
inductive MonitorEvent where
  | signInDone
  | wroteJson (file : String) (clusters : List ClusterResponse)
  | wroteCsv (row : String)
  | slept
deriving Repr, DecidableEq

/-- The loop-carried state of `monitorClusters`: the `previous` snapshot. -/
structure MonitorState where
  previous : Option (List ClusterResponse)
deriving Repr, DecidableEq

/-- `dateTime.toISOString().replace(/:/g, '-')`. -/
def replaceColons (s : String) : String :=
  String.mk (s.data.map fun c => if c = ':' then '-' else c)

/-- The snapshot file name used by the loop body. -/
def snapshotFileName (statusDir dateTime : String) : String :=
  statusDir ++ "/" ++ replaceColons dateTime ++ "-clusters.json"

/-- One iteration of the `while (!abort.signal.aborted)` body of
`monitorClusters`: on a throw the `catch` logs and falls through to the
sleep; on a falsy cluster value `continue` skips the rest of the body
including the sleep; otherwise the snapshot is written, a CSV row is
appended when a previous snapshot exists, `previous` is replaced, and the
loop sleeps. Console output is not modelled. -/
def stepMonitor (statusDir : String) (st : MonitorState)
    (outcome : FetchOutcome) (dateTime : String) :
    MonitorState × List MonitorEvent :=
  match outcome with
  | .error => (st, [.slept])
  | .got none => (st, [])
  | .got (some clusters) =>
    let logFile := snapshotFileName statusDir dateTime
    match st.previous with
    | some prev =>
      ({ previous := some clusters },
       [.wroteJson logFile clusters,
        .wroteCsv (csvLine (compareResults prev clusters dateTime)), .slept])
    | none =>
      ({ previous := some clusters }, [.wroteJson logFile clusters, .slept])

/-- The monitor loop over a finite schedule of fetch outcomes (the schedule
ending models the SIGINT abort being observed at the loop head). -/
def runLoop (statusDir : String) (st : MonitorState) :
    List (FetchOutcome × String) → MonitorState × List MonitorEvent
  | [] => (st, [])
  | (o, t) :: rest =>
    let step := stepMonitor statusDir st o t
    let tail := runLoop statusDir step.1 rest
    (tail.1, step.2 ++ tail.2)

/-- The whole `monitorClusters` run: one sign-in, then the loop, starting
from the previous status loaded from disk. -/
def monitorClustersTrace (statusDir : String)
    (previous0 : Option (List ClusterResponse))
    (iters : List (FetchOutcome × String)) : List MonitorEvent :=
  .signInDone :: (runLoop statusDir ⟨previous0⟩ iters).2

/-- Event classifiers used to count writes. -/
def isJsonWrite : MonitorEvent → Bool
  | .wroteJson _ _ => true
  | _ => false

def isCsvWrite : MonitorEvent → Bool
  | .wroteCsv _ => true
  | _ => false

def isSignInDone : MonitorEvent → Bool
  | .signInDone => true
  | _ => false

/-- C5: when `getClusters` throws, the iteration leaves the stored previous
snapshot unchanged, writes no JSON snapshot and no CSV row (only the sleep
happens), and the loop continues with the remaining iterations from the
same state. -/
theorem monitorClusters_error_iteration (statusDir : String)
    (st : MonitorState) (t : String) (rest : List (FetchOutcome × String)) :
    stepMonitor statusDir st .error t = (st, [.slept])
    ∧ runLoop statusDir st ((.error, t) :: rest) =
        ((runLoop statusDir st rest).1,
          .slept :: (runLoop statusDir st rest).2) :=
  ⟨rfl, rfl⟩

lemma runLoop_no_signIn (statusDir : String) (st : MonitorState)
    (iters : List (FetchOutcome × String)) :
    ((runLoop statusDir st iters).2.countP isSignInDone) = 0 := by
  induction iters generalizing st with
  | nil => simp [runLoop]
  | cons it rest ih =>
    obtain ⟨o, t⟩ := it
    rw [runLoop]
    rw [List.countP_append]
    rw [ih]
    cases o with
    | error => simp [stepMonitor, isSignInDone]
    | got c =>
      cases c with
      | none => simp [stepMonitor]
      | some clusters =>
        cases hp : st.previous with
        | none => simp [stepMonitor, hp, isSignInDone]
        | some prev => simp [stepMonitor, hp, isSignInDone]

/-- Counterexample to C6 as stated: on the first successful iteration after
starting with no previous snapshot, the loop writes the JSON snapshot and
sleeps but appends no CSV comparison row at all, so a successful-fetch
iteration does not always append exactly one CSV row. -/
theorem monitorClusters_first_iteration_no_csv :
    (stepMonitor "../cluster-monitoring-logs" ⟨none⟩
        (.got (some [⟨"c1", true⟩])) "2021-01-01T00:00:00.000Z").2.countP
      isCsvWrite = 0
    ∧ (stepMonitor "../cluster-monitoring-logs" ⟨none⟩
        (.got (some [⟨"c1", true⟩])) "2021-01-01T00:00:00.000Z").2.countP
      isJsonWrite = 1 := by
  constructor <;> rfl

/-- C6 (amended): on every iteration whose fetch returns a cluster list the
loop writes exactly one JSON snapshot; it appends exactly one CSV row when
a previous snapshot exists, and none on the first such iteration without
one; the iteration ends with the sleep and updates `previous` to the
fetched list; sign-in is performed exactly once, before the loop. -/
theorem monitorClusters_iteration (statusDir : String) (st : MonitorState)
    (clusters : List ClusterResponse) (t : String) :
    ((stepMonitor statusDir st (.got (some clusters)) t).2.countP isJsonWrite
      = 1)
    ∧ (∀ prev, st.previous = some prev →
      (stepMonitor statusDir st (.got (some clusters)) t).2 =
        [.wroteJson (snapshotFileName statusDir t) clusters,
         .wroteCsv (csvLine (compareResults prev clusters t)), .slept])
    ∧ (st.previous = none →
      (stepMonitor statusDir st (.got (some clusters)) t).2 =
        [.wroteJson (snapshotFileName statusDir t) clusters, .slept])
    ∧ (stepMonitor statusDir st (.got (some clusters)) t).1 = ⟨some clusters⟩
    ∧ (∀ previous0 iters,
      (monitorClustersTrace statusDir previous0 iters).countP isSignInDone
        = 1) := by
  refine ⟨?_, ?_, ?_, ?_, ?_⟩
  · cases hp : st.previous with
    | none => simp [stepMonitor, hp, isJsonWrite, isCsvWrite]
    | some prev => simp [stepMonitor, hp, isJsonWrite, isCsvWrite]
  · intro prev hp
    simp [stepMonitor, hp]
  · intro hp
    simp [stepMonitor, hp]
  · cases hp : st.previous with
    | none => simp [stepMonitor, hp]
    | some prev => simp [stepMonitor, hp]
  · intro previous0 iters
    simp [monitorClustersTrace, runLoop_no_signIn, isSignInDone]

/-- Witness for C6 (amended): a concrete iteration with a previous snapshot
writes the JSON file, then the CSV comparison row, then sleeps. -/
theorem monitorClusters_iteration_witness :
    (stepMonitor "logs" ⟨some [⟨"a", true⟩]⟩
        (.got (some [⟨"a", false⟩])) "T1:2").2 =
      [.wroteJson "logs/T1-2-clusters.json" [⟨"a", false⟩],
       .wroteCsv (csvLine (compareResults [⟨"a", true⟩] [⟨"a", false⟩] "T1:2")),
       .slept] := by
  have h := (monitorClusters_iteration "logs" ⟨some [⟨"a", true⟩]⟩
      [⟨"a", false⟩] "T1:2").2.1 [⟨"a", true⟩] rfl
  rw [h]
  rfl

/-! ### The `DigitalFactoryDemo` OAuth2/PKCE sign-in flow
(`digital-factory.ts`). The external crypto primitives (`randomBytes`,
SHA-512, base64) and the remote token endpoint are parameters. -/

/-- The token endpoint response (`TokenResponse`). -/
structure TokenResponse where
  access_token : String
  expires_in : Nat
  refresh_token : String
  scope : String
  token_type : String
deriving Repr, DecidableEq

/-- The form body `_requestAccessToken` posts to the token URL. -/
structure TokenRequest where
  client_id : String
  redirect_uri : Option String
  grant_type : String
  scope : String
  code : String
  code_verifier : String
deriving Repr, DecidableEq

/-- The fields of `DigitalFactoryDemo` used by the sign-in flow. The
callback `http.Server` object is modelled by `Option Unit` (a live server
or `null`); the `_signInCompleteResolve` promise resolution is modelled by
the flag `signInComplete`. -/
structure DemoState where
  callbackServer : Option Unit
  state : Option String
  pkceVerifier : Option String
  tokenPair : Option TokenResponse
  token_url : Option String
  redirectUri : Option String
  signInComplete : Bool
deriving Repr, DecidableEq

/-- A fresh `DigitalFactoryDemo` object. -/
def initialDemoState : DemoState := ⟨none, none, none, none, none, none, false⟩

def OAUTH_SERVER_URL : String := "https://account.ultimaker.com"

def CALLBACK_SERVER_PORT : Nat := 32118

/-- `_generateState()`: base64 of 16 random bytes. -/
def generateState (base64 : List Nat → String) (randomBytes16 : List Nat) :
    String := base64 randomBytes16

/-- `_generatePKCEVerifier()`: base64 of 32 random bytes. -/
def generatePKCEVerifier (base64 : List Nat → String)
    (randomBytes32 : List Nat) : String := base64 randomBytes32

/-- `_generatePKCEChallenge(verifier)`: base64 of the SHA-512 digest of the
verifier. -/
def generatePKCEChallenge (sha512 : String → List Nat)
    (base64 : List Nat → String) (verifier : String) : String :=
  base64 (sha512 verifier)

/-- `signIn()`: starts the callback server, generates the state and PKCE
verifier, and builds the authorization query. Returns the updated object
state and the `URLSearchParams` of the sign-in URL (in insertion order). -/
def signIn (base64 : List Nat → String) (sha512 : String → List Nat)
    (clientId scopes : String) (stateBytes verifierBytes : List Nat)
    (st : DemoState) : DemoState × List (String × String) :=
  let token_url := OAUTH_SERVER_URL ++ "/token"
  let redirectUri :=
    "http://localhost:" ++ toString CALLBACK_SERVER_PORT ++ "/callback"
  let newState := generateState base64 stateBytes
  let verifier := generatePKCEVerifier base64 verifierBytes
  ({ st with
      callbackServer := some ()
      token_url := some token_url
      redirectUri := some redirectUri
      state := some newState
      pkceVerifier := some verifier },
   [("client_id", clientId), ("redirect_uri", redirectUri),
    ("scope", scopes), ("state", newState), ("response_type", "code"),
    ("code_challenge", generatePKCEChallenge sha512 base64 verifier),
    ("code_challenge_method", "S512")])

/-- `searchParams.get(key)`: first value for the key, or `null`. -/
def searchGet (params : List (String × String)) (key : String) :
    Option String :=
  (params.find? fun p => p.1 == key).map fun p => p.2

/-- An incoming HTTP request on the callback server: `req.url` (`none`
models a falsy url) and the query parameters of the parsed URL. -/
structure IncomingRequest where
  url : Option String
  params : List (String × String)
deriving Repr, DecidableEq

/-- What one `_handleRequest` call did: the object state afterwards, the
token request posted to the token endpoint (if any), and whether the 200
response was written. -/
structure HandleResult where
  st : DemoState
  tokenRequestSent : Option TokenRequest
  responded : Bool
deriving Repr, DecidableEq

/-- The form body built by `_requestAccessToken(code, pkceVerifier)`. -/
def requestAccessToken (clientId scopes : String) (st : DemoState)
    (code pkceVerifier : String) : TokenRequest :=
  { client_id := clientId, redirect_uri := st.redirectUri,
    grant_type := "authorization_code", scope := scopes,
    code := code, code_verifier := pkceVerifier }

/-- `_handleRequest(req, res)`: the guard chain (`!req.url`,
`!this._pkceVerifier`, `!code`, `!state || state !== this._state`) followed
by the token exchange and the reset of the server, state and verifier. -/
def handleRequest (tokenEndpoint : TokenRequest → TokenResponse)
    (clientId scopes : String) (st : DemoState) (req : IncomingRequest) :
    HandleResult :=
  match req.url with
  | none => ⟨st, none, false⟩
  | some _ =>
    match st.pkceVerifier with
    | none => ⟨st, none, false⟩
    | some verifier =>
      match searchGet req.params "code" with
      | none => ⟨st, none, false⟩
      | some code =>
        if code = "" then ⟨st, none, false⟩
        else
          match searchGet req.params "state" with
          | none => ⟨st, none, false⟩
          | some stateParam =>
            if stateParam = "" ∨ ¬ st.state = some stateParam then
              ⟨st, none, false⟩
            else
              let tr := requestAccessToken clientId scopes st code verifier
              ⟨{ st with
                  tokenPair := some (tokenEndpoint tr)
                  callbackServer := none
                  state := none
                  pkceVerifier := none
                  signInComplete := true },
               some tr, true⟩

/-- Handling a sequence of requests, accumulating the token requests sent. -/
def processRequests (tokenEndpoint : TokenRequest → TokenResponse)
    (clientId scopes : String) :
    DemoState → List IncomingRequest → DemoState × List TokenRequest
  | st, [] => (st, [])
  | st, r :: rs =>
    let res := handleRequest tokenEndpoint clientId scopes st r
    let tail := processRequests tokenEndpoint clientId scopes res.st rs
    (tail.1, res.tokenRequestSent.toList ++ tail.2)

/-- The checks named by the claim: a non-empty `code` parameter and a
`state` parameter equal to the stored state. -/
def callbackChecksPass (st : DemoState) (req : IncomingRequest) : Bool :=
  (match searchGet req.params "code" with
   | some code => !(code == "")
   | none => false)
  && (match searchGet req.params "state" with
      | some s => st.state == some s
      | none => false)

lemma handleRequest_noVerifier (te : TokenRequest → TokenResponse)
    (clientId scopes : String) (st : DemoState) (req : IncomingRequest)
    (h : st.pkceVerifier = none) :
    handleRequest te clientId scopes st req = ⟨st, none, false⟩ := by
  cases hu : req.url with
  | none => simp [handleRequest, hu]
  | some u => simp [handleRequest, hu, h]

lemma processRequests_noVerifier (te : TokenRequest → TokenResponse)
    (clientId scopes : String) (st : DemoState) (reqs : List IncomingRequest)
    (h : st.pkceVerifier = none) :
    processRequests te clientId scopes st reqs = (st, []) := by
  induction reqs with
  | nil => rfl
  | cons r rs ih =>
    rw [processRequests]
    rw [handleRequest_noVerifier te clientId scopes st r h]
    simp [ih]

lemma handleRequest_cases (te : TokenRequest → TokenResponse)
    (clientId scopes : String) (st : DemoState) (req : IncomingRequest) :
    handleRequest te clientId scopes st req = ⟨st, none, false⟩
    ∨ ∃ code verifier,
        st.pkceVerifier = some verifier ∧
        handleRequest te clientId scopes st req =
          ⟨{ st with
              tokenPair :=
                some (te (requestAccessToken clientId scopes st code verifier))
              callbackServer := none
              state := none
              pkceVerifier := none
              signInComplete := true },
           some (requestAccessToken clientId scopes st code verifier), true⟩ := by
  cases hu : req.url with
  | none => left; simp [handleRequest, hu]
  | some u =>
    cases hv : st.pkceVerifier with
    | none => left; simp [handleRequest, hu, hv]
    | some verifier =>
      cases hc : searchGet req.params "code" with
      | none => left; simp [handleRequest, hu, hv, hc]
      | some code =>
        by_cases hce : code = ""
        · left; simp [handleRequest, hu, hv, hc, hce]
        · cases hsp : searchGet req.params "state" with
          | none => left; simp [handleRequest, hu, hv, hc, hce, hsp]
          | some sp =>
            by_cases hcond : sp = "" ∨ ¬ st.state = some sp
            · left; simp [handleRequest, hu, hv, hc, hce, hsp, hcond]
            · right
              exact ⟨code, verifier, rfl,
                by simp [handleRequest, hu, hv, hc, hce, hsp, hcond]⟩

/-- C2: `_handleRequest` posts a token request only when the incoming
request carries a non-empty `code` parameter and a `state` parameter equal
to the stored state; for every request failing these checks the handler
returns with the object state unchanged, no token request posted and no
response written. -/
theorem handleRequest_guarded (te : TokenRequest → TokenResponse)
    (clientId scopes : String) (st : DemoState) (req : IncomingRequest) :
    ((handleRequest te clientId scopes st req).tokenRequestSent.isSome = true →
      callbackChecksPass st req = true)
    ∧ (callbackChecksPass st req = false →
      handleRequest te clientId scopes st req = ⟨st, none, false⟩) := by
  have key : callbackChecksPass st req = false →
      handleRequest te clientId scopes st req = ⟨st, none, false⟩ := by
    intro hfail
    cases hu : req.url with
    | none => simp [handleRequest, hu]
    | some u =>
      cases hv : st.pkceVerifier with
      | none => simp [handleRequest, hu, hv]
      | some verifier =>
        cases hc : searchGet req.params "code" with
        | none => simp [handleRequest, hu, hv, hc]
        | some code =>
          by_cases hce : code = ""
          · simp [handleRequest, hu, hv, hc, hce]
          · cases hsp : searchGet req.params "state" with
            | none => simp [handleRequest, hu, hv, hc, hce, hsp]
            | some sp =>
              by_cases hcond : sp = "" ∨ ¬ st.state = some sp
              · simp [handleRequest, hu, hv, hc, hce, hsp, hcond]
              · exfalso
                push_neg at hcond
                rw [callbackChecksPass, hc, hsp] at hfail
                simp [hce, hcond.2] at hfail
  refine ⟨?_, key⟩
  intro hsent
  by_contra hfail
  rw [Bool.not_eq_true] at hfail
  rw [key hfail] at hsent
  simp at hsent

/-- Witness for C2: a request with no query parameters leaves a fresh
demo object unchanged. -/
theorem handleRequest_guarded_witness :
    handleRequest (fun _ => ⟨"tok", 0, "ref", "sc", "bearer"⟩) "cid" "scopes"
        initialDemoState ⟨some "/callback", []⟩ =
      ⟨initialDemoState, none, false⟩ :=
  (handleRequest_guarded (fun _ => ⟨"tok", 0, "ref", "sc", "bearer"⟩) "cid"
      "scopes" initialDemoState ⟨some "/callback", []⟩).2 (by decide)

/-- C3: the callback listener is one-shot. After a request that results in
a token exchange, the callback server field is cleared (the server is
closed and nulled), the stored state and PKCE verifier are reset to `null`,
and processing any further sequence of requests performs no token exchange
and leaves the object state untouched. -/
theorem handleRequest_oneShot (te : TokenRequest → TokenResponse)
    (clientId scopes : String) (st : DemoState) (req : IncomingRequest)
    (reqs : List IncomingRequest)
    (h : (handleRequest te clientId scopes st req).tokenRequestSent.isSome
      = true) :
    (handleRequest te clientId scopes st req).st.callbackServer = none
    ∧ (handleRequest te clientId scopes st req).st.state = none
    ∧ (handleRequest te clientId scopes st req).st.pkceVerifier = none
    ∧ processRequests te clientId scopes
        (handleRequest te clientId scopes st req).st reqs =
      ((handleRequest te clientId scopes st req).st, []) := by
  rcases handleRequest_cases te clientId scopes st req with heq | ⟨c, v, hv, heq⟩
  · rw [heq] at h
    simp at h
  · rw [heq]
    refine ⟨rfl, rfl, rfl, ?_⟩
    exact processRequests_noVerifier te clientId scopes _ reqs rfl

/-- Witness for C3: a concrete successful callback, after which a repeat of
the very same request is ignored. -/
theorem handleRequest_oneShot_witness :
    (handleRequest (fun _ => ⟨"tok", 0, "ref", "sc", "bearer"⟩) "cid" "scopes"
        ⟨some (), some "S", some "V", none, some "u", some "r", false⟩
        ⟨some "/callback", [("code", "abc"), ("state", "S")]⟩).st.pkceVerifier
      = none
    ∧ processRequests (fun _ => ⟨"tok", 0, "ref", "sc", "bearer"⟩) "cid"
        "scopes"
        (handleRequest (fun _ => ⟨"tok", 0, "ref", "sc", "bearer"⟩) "cid"
          "scopes"
          ⟨some (), some "S", some "V", none, some "u", some "r", false⟩
          ⟨some "/callback", [("code", "abc"), ("state", "S")]⟩).st
        [⟨some "/callback", [("code", "abc"), ("state", "S")]⟩] =
      ((handleRequest (fun _ => ⟨"tok", 0, "ref", "sc", "bearer"⟩) "cid"
          "scopes"
          ⟨some (), some "S", some "V", none, some "u", some "r", false⟩
          ⟨some "/callback", [("code", "abc"), ("state", "S")]⟩).st, []) := by
  have h := handleRequest_oneShot (fun _ => ⟨"tok", 0, "ref", "sc", "bearer"⟩)
    "cid" "scopes" ⟨some (), some "S", some "V", none, some "u", some "r", false⟩
    ⟨some "/callback", [("code", "abc"), ("state", "S")]⟩
    [⟨some "/callback", [("code", "abc"), ("state", "S")]⟩] (by decide)
  exact ⟨h.2.2.1, h.2.2.2⟩

/-- C4: the code exchange is bound to the client-generated secret. After
`signIn`, the `code_challenge` in the authorization query is the base64 of
the SHA-512 digest of the freshly generated PKCE verifier, that verifier is
the one stored on the object, and any token request the callback handler
later posts carries exactly that verifier as `code_verifier`. -/
theorem signIn_pkce_binding (base64 : List Nat → String)
    (sha512 : String → List Nat) (clientId scopes : String)
    (stateBytes verifierBytes : List Nat) (st : DemoState)
    (te : TokenRequest → TokenResponse) :
    searchGet
        (signIn base64 sha512 clientId scopes stateBytes verifierBytes st).2
        "code_challenge" =
      some (base64 (sha512 (generatePKCEVerifier base64 verifierBytes)))
    ∧ (signIn base64 sha512 clientId scopes stateBytes verifierBytes
        st).1.pkceVerifier = some (generatePKCEVerifier base64 verifierBytes)
    ∧ ∀ req tr,
        (handleRequest te clientId scopes
            (signIn base64 sha512 clientId scopes stateBytes verifierBytes
              st).1 req).tokenRequestSent = some tr →
        tr.code_verifier = generatePKCEVerifier base64 verifierBytes := by
  refine ⟨?_, rfl, ?_⟩
  · simp [signIn, searchGet, generatePKCEChallenge]
  · intro req tr h
    rcases handleRequest_cases te clientId scopes
        (signIn base64 sha512 clientId scopes stateBytes verifierBytes st).1
        req with heq | ⟨c, v, hv, heq⟩
    · rw [heq] at h
      cases h
    · rw [heq] at h
      have h2 : (signIn base64 sha512 clientId scopes stateBytes verifierBytes
          st).1.pkceVerifier =
          some (generatePKCEVerifier base64 verifierBytes) := rfl
      have hv' : v = generatePKCEVerifier base64 verifierBytes :=
        Option.some.inj (hv.symm.trans h2)
      have htr : tr = requestAccessToken clientId scopes _ c v :=
        (Option.some.inj h).symm
      rw [htr, hv']
      rfl

/-- Witness for C4: with concrete crypto stubs, the token request posted by
a valid callback carries the generated verifier. -/
theorem signIn_pkce_binding_witness :
    (⟨"cid", some "http://localhost:32118/callback", "authorization_code",
        "scopes", "abc", "VERI"⟩ : TokenRequest).code_verifier =
      generatePKCEVerifier (fun _ => "VERI") [1] := by
  have h := signIn_pkce_binding (fun _ => "VERI") (fun _ => [0]) "cid"
    "scopes" [0] [1] initialDemoState (fun _ => ⟨"tok", 0, "ref", "sc", "b"⟩)
  exact h.2.2 ⟨some "/callback", [("code", "abc"), ("state", "VERI")]⟩
    ⟨"cid", some "http://localhost:32118/callback", "authorization_code",
      "scopes", "abc", "VERI"⟩ (by decide)

/-! ### The interactive demo entry point (`main.ts`). -/

/-- One Digital Factory endpoint invocation made by `main`. The
`CLUSTER_ID` and `UFP_PATH` environment variables may be unset, so the
corresponding arguments are `Option String`. -/
inductive ApiCall where
  | createProject (name : String)
  | addCommentToProject (projectId comment : String)
  | uploadFileToProject (projectId : String) (filePath : Option String)
  | submitPrintJob (jobId : String) (clusterId : Option String)
  | getRunningPrintJobs
  | searchProjects
deriving Repr, DecidableEq

/-- Classifier for the upload call. -/
def isUploadCall : ApiCall → Bool
  | .uploadFileToProject _ _ => true
  | _ => false

/-- The endpoint calls `main` makes after `signIn` completes, in order.
`clusterId` and `ufpPath` are the `CLUSTER_ID` / `UFP_PATH` environment
variables; `libraryProjectId` and `jobId` are the ids returned by the
create-project and upload responses. The upload and print-job submission
happen only when neither variable still holds its placeholder value. -/
def mainApiCalls (clusterId ufpPath : Option String)
    (libraryProjectId jobId : String) : List ApiCall :=
  [.createProject "Demo project",
   .addCommentToProject libraryProjectId "Demo comment"]
  ++ (if clusterId ≠ some "your-cluster-id"
        ∧ ufpPath ≠ some "path/to/your/file.ufp" then
      [.uploadFileToProject libraryProjectId ufpPath,
       .submitPrintJob jobId clusterId]
    else [])
  ++ [.getRunningPrintJobs, .searchProjects]

/-- Counterexample to C7 as stated: with the placeholder configuration the
demo run performs no upload and no print-job submission, so not every run
invokes all six endpoints. -/
theorem mainApiCalls_skips_upload :
    mainApiCalls (some "your-cluster-id") (some "path/to/your/file.ufp")
        "lib" "job" =
      [.createProject "Demo project",
       .addCommentToProject "lib" "Demo comment",
       .getRunningPrintJobs, .searchProjects]
    ∧ (mainApiCalls (some "your-cluster-id") (some "path/to/your/file.ufp")
        "lib" "job").countP isUploadCall = 0 := by
  constructor <;> rfl

/-- C7 (amended): after authentication the demo invokes create-project and
add-comment; when `CLUSTER_ID` and `UFP_PATH` are configured away from
their placeholder values it continues with upload-file and
submit-print-job; it always finishes with list-running-jobs and
search-projects — all in this order. -/
theorem mainApiCalls_order (clusterId ufpPath : Option String)
    (libraryProjectId jobId : String) :
    (clusterId ≠ some "your-cluster-id"
        ∧ ufpPath ≠ some "path/to/your/file.ufp" →
      mainApiCalls clusterId ufpPath libraryProjectId jobId =
        [.createProject "Demo project",
         .addCommentToProject libraryProjectId "Demo comment",
         .uploadFileToProject libraryProjectId ufpPath,
         .submitPrintJob jobId clusterId,
         .getRunningPrintJobs, .searchProjects])
    ∧ (¬(clusterId ≠ some "your-cluster-id"
        ∧ ufpPath ≠ some "path/to/your/file.ufp") →
      mainApiCalls clusterId ufpPath libraryProjectId jobId =
        [.createProject "Demo project",
         .addCommentToProject libraryProjectId "Demo comment",
         .getRunningPrintJobs, .searchProjects]) := by
  constructor
  · intro h
    simp [mainApiCalls, h]
  · intro h
    simp [mainApiCalls, h]

/-- Witness for C7 (amended): a configured run performs all six calls in
order. -/
theorem mainApiCalls_order_witness :
    mainApiCalls (some "cluster-1") (some "part.ufp") "lib" "job" =
      [.createProject "Demo project",
       .addCommentToProject "lib" "Demo comment",
       .uploadFileToProject "lib" (some "part.ufp"),
       .submitPrintJob "job" (some "cluster-1"),
       .getRunningPrintJobs, .searchProjects] :=
  (mainApiCalls_order (some "cluster-1") (some "part.ufp") "lib" "job").1
    (by decide)

end DFSDK
